import Mathlib

/- Verification of the ESP32 weather-dashboard server (src/server.js).

   The file gives a shallow embedding of the server's pure content:
   the MongoDB aggregation pipeline built by the `GET /` handler, the
   `POST /api/sensor` ingestion handler, the recent-sensor query, the
   timestamp formatter and the startup checks, together with proofs of
   the specified properties. -/

/-! ### String primitives

JavaScript / MongoDB string operations are modelled over Unicode
code-point sequences (`List Nat`), since the claims only need exact and
ASCII-case-insensitive comparison and code-point lexicographic order. -/

/-- The code points of a string. -/
def strCodes (s : String) : List Nat := s.data.map Char.toNat

/-- ASCII lower-casing of one code point (the case folding performed by a
case-insensitive regex on ASCII letters). -/
def lowerCode (n : Nat) : Nat := if 65 ≤ n && n ≤ 90 then n + 32 else n

/-- The ASCII-lower-cased code points of a string. -/
def lowerCodes (s : String) : List Nat := (strCodes s).map lowerCode

/-- `beginsWith p s`: `p` is an initial segment of `s`. -/
def beginsWith : List Nat → List Nat → Bool
  | [], _ => true
  | _ :: _, [] => false
  | p :: ps, c :: cs => p == c && beginsWith ps cs

/-- `hasSub p s`: `p` occurs contiguously inside `s`. -/
def hasSub : List Nat → List Nat → Bool
  | p, [] => p.isEmpty
  | p, c :: cs => beginsWith p (c :: cs) || hasSub p cs

/-- Modelled library behaviour: MongoDB `{ $regex: pat, $options: 'i' }`
applied to a pattern that contains no regex metacharacters, i.e. a
case-insensitive substring search of `pat` inside `hay`
(src/server.js line 49). -/
def containsCI (hay pat : String) : Bool := hasSub (lowerCodes pat) (lowerCodes hay)

/-- Code-point lexicographic order on strings: the order MongoDB's
default (binary) collation uses for ascending string sorts. -/
def lexLe : List Nat → List Nat → Bool
  | [], _ => true
  | _ :: _, [] => false
  | a :: as, b :: bs => decide (a < b) || (a == b && lexLe as bs)

/-! ### Data model (spec §3) -/

/-- A document of the `records` collection: `{ city, region, timestamp,
other weather fields }`.  The pipeline reads only `city`, `region` and
`timestamp`; `extra` stands for the remaining weather fields, carried
whole through `$$ROOT`. -/
structure WeatherRecord where
  city : String
  region : String
  timestamp : Int
  extra : Int
  deriving DecidableEq, Repr

/-- One element of the aggregation output: `_id` (the region name) and
the `provinces` array pushed by the second `$group` stage. -/
structure RegionView where
  regionName : String
  provinces : List WeatherRecord
  deriving DecidableEq, Repr

/-! ### Sort orders used by the pipeline -/

/-- `$sort { timestamp: -1 }` on `records` documents. -/
def tsGeW (a b : WeatherRecord) : Prop := b.timestamp ≤ a.timestamp

instance : DecidableRel tsGeW :=
  fun a b => inferInstanceAs (Decidable (b.timestamp ≤ a.timestamp))

/-- `$sort { city: 1 }` on `records` documents. -/
def cityLe (a b : WeatherRecord) : Prop :=
  lexLe (strCodes a.city) (strCodes b.city) = true

instance : DecidableRel cityLe :=
  fun a b => inferInstanceAs (Decidable (_ = true))

/-- `$sort { _id: 1 }` on the grouped regions. -/
def regionLe (a b : RegionView) : Prop :=
  lexLe (strCodes a.regionName) (strCodes b.regionName) = true

instance : DecidableRel regionLe :=
  fun a b => inferInstanceAs (Decidable (_ = true))

/-! ### The aggregation pipeline (src/server.js lines 46-74) -/

/-- Lines 46-50 and 55: the `$match` stage.  With an empty search string
the stage is `{ $match: {} }` and passes every document; otherwise it
keeps the documents whose `city` matches the search string as a
case-insensitive regex. -/
def matchStage (q : String) (records : List WeatherRecord) : List WeatherRecord :=
  if q = "" then records else records.filter (fun r => containsCI r.city q)

/-- Structural worker for `dedupByCity`; the fuel argument only pays for
termination and is irrelevant once it is at least the list's length. -/
def dedupByCityF : Nat → List WeatherRecord → List WeatherRecord
  | _, [] => []
  | 0, r :: rs => r :: rs
  | fuel + 1, r :: rs =>
    r :: dedupByCityF fuel (rs.filter (fun s => !(s.city == r.city)))

/-- Lines 57-63: `$group { _id: "$city", doc: { $first: "$$ROOT" } }`
followed by `$replaceRoot`.  For each city, in pipeline order, the first
document with that city is kept whole. -/
def dedupByCity (l : List WeatherRecord) : List WeatherRecord :=
  dedupByCityF l.length l

/-- Structural worker for `groupByRegion`; the fuel argument only pays
for termination and is irrelevant once it is at least the list's length. -/
def groupByRegionF : Nat → List WeatherRecord → List RegionView
  | _, [] => []
  | 0, _ :: _ => []
  | fuel + 1, r :: rs =>
    ⟨r.region, (r :: rs).filter (fun s => s.region == r.region)⟩ ::
      groupByRegionF fuel (rs.filter (fun s => !(s.region == r.region)))

/-- Lines 65-70: `$group { _id: "$region", provinces: { $push: "$$ROOT" } }`.
Each region present is paired with the subsequence of documents carrying
that region, in pipeline order. -/
def groupByRegion (l : List WeatherRecord) : List RegionView :=
  groupByRegionF l.length l

/-- Lines 54-74: the whole pipeline executed on the `records` collection. -/
def aggregate (q : String) (records : List WeatherRecord) : List RegionView :=
  let matched := matchStage q records
  let byTimeDesc := List.insertionSort tsGeW matched
  let latestPerCity := dedupByCity byTimeDesc
  let byCity := List.insertionSort cityLe latestPerCity
  let grouped := groupByRegion byCity
  List.insertionSort regionLe grouped

/-- All weather records appearing in a list of region views (the
concatenation of their `provinces` arrays). -/
def allProvinces : List RegionView → List WeatherRecord
  | [] => []
  | v :: vs => v.provinces ++ allProvinces vs

/-! ### JavaScript values and numeric coercion (src/server.js lines 111-125) -/

/-- A JavaScript number: either the NaN sentinel or an (integral)
numeric value.  The server performs no arithmetic, so the integral
fragment of JS numbers suffices. -/
inductive JNum where
  | nan : JNum
  | val : Int → JNum
  deriving DecidableEq, Repr

/-- A JSON value as delivered by the `express.json()` body parser.  The
claims only need null, booleans, numbers and strings. -/
inductive JsValue where
  | null : JsValue
  | bool : Bool → JsValue
  | num : JNum → JsValue
  | str : String → JsValue
  deriving DecidableEq, Repr

/-- Parses the code points of a string as ECMAScript `Number(string)`
does, restricted to the empty string (which coerces to 0) and unsigned
decimal digit strings; every other string coerces to NaN. -/
def parseJsNumber (codes : List Nat) : JNum :=
  if codes.isEmpty then .val 0
  else if codes.all (fun c => 48 ≤ c && c ≤ 57) then
    .val (Int.ofNat (codes.foldl (fun acc c => acc * 10 + (c - 48)) 0))
  else .nan

/-- Modelled library behaviour: the ECMAScript `Number(x)` coercion used
on lines 122-123, on the modelled value fragment: `Number(null) = 0`,
booleans map to 0/1, numbers are unchanged, and strings parse as decimal
or give NaN. -/
def toNumber : JsValue → JNum
  | .null => .val 0
  | .bool b => .val (if b then 1 else 0)
  | .num x => x
  | .str s => parseJsNumber (strCodes s)

/-! ### The sensors collection and POST /api/sensor (src/server.js lines 108-134) -/

/-- A document of the `sensors` collection: exactly the three fields
written on lines 121-125. -/
structure SensorReading where
  temperature : JNum
  humidity : JNum
  timestamp : Int
  deriving DecidableEq, Repr

/-- A BSON value occurring in a `sensors` document. -/
inductive BsonValue where
  | num : JNum → BsonValue
  | date : Int → BsonValue
  deriving DecidableEq, Repr

/-- The field list of a persisted sensor document, in the order of the
object literal on lines 121-125. -/
def SensorReading.toDoc (r : SensorReading) : List (String × BsonValue) :=
  [("temperature", .num r.temperature),
   ("humidity", .num r.humidity),
   ("timestamp", .date r.timestamp)]

/-- A parsed `POST /api/sensor` JSON body.  `none` models an absent
(`undefined`) field; `rest` holds any further fields the client sent,
which the destructuring on line 111 never reads. -/
structure PostBody where
  temperature : Option JsValue
  humidity : Option JsValue
  rest : List (String × JsValue)
  deriving DecidableEq, Repr

/-- The document built on lines 121-125 from the two body fields and the
server clock. -/
def newSensorRecord (temperature humidity : JsValue) (now : Int) : SensorReading :=
  { temperature := toNumber temperature
    humidity := toNumber humidity
    timestamp := now }

/-- An HTTP response of the ingestion route. -/
inductive PostResponse where
  | created : String → PostResponse
  | badRequest : String → PostResponse
  | serverError : String → PostResponse
  deriving DecidableEq, Repr

/-- The HTTP status code of an ingestion response. -/
def PostResponse.status : PostResponse → Nat
  | .created _ => 201
  | .badRequest _ => 400
  | .serverError _ => 500

/-- Lines 108-134: the `POST /api/sensor` handler, as a function of the
request body, the server clock, whether `insertOne` throws, and the
prior contents of the `sensors` collection.  Returns the collection
contents after the request together with the response. -/
def handleSensorPost (body : PostBody) (now : Int) (insertThrows : Bool)
    (sensors : List SensorReading) : List SensorReading × PostResponse :=
  match body.temperature, body.humidity with
  | some t, some h =>
    if insertThrows then
      (sensors, .serverError "Internal Server Error")
    else
      (sensors ++ [newSensorRecord t h now],
       .created "Sensor data saved successfully.")
  | _, _ => (sensors, .badRequest "Bad Request: Missing temperature or humidity.")

/-! ### The recent-sensors query (src/server.js lines 87-92) -/

/-- `$sort`-order `{ timestamp: -1 }` on sensor documents. -/
def tsGeS (a b : SensorReading) : Prop := b.timestamp ≤ a.timestamp

instance : DecidableRel tsGeS :=
  fun a b => inferInstanceAs (Decidable (b.timestamp ≤ a.timestamp))

/-- Lines 88-92: `find({}).sort({ timestamp: -1 }).limit(5)` over the
`sensors` collection. -/
def sensorQuery (sensors : List SensorReading) : List SensorReading :=
  (List.insertionSort tsGeS sensors).take 5

/-! ### The timestamp formatter (src/server.js lines 77-84, 94-97) -/

/-- Civil date from a day count relative to 1970-01-01, by the standard
era-decomposition of the Gregorian calendar, written with Lean's
floor-style integer division.  Returns `(year, month, day)`. -/
def civilFromDays (z0 : Int) : Int × Int × Int :=
  let z := z0 + 719468
  let era := z / 146097
  let doe := z - era * 146097
  let yoe := (doe - doe / 1460 + doe / 36524 - doe / 146096) / 365
  let y := yoe + era * 400
  let doy := doe - (365 * yoe + yoe / 4 - yoe / 100)
  let mp := (5 * doy + 2) / 153
  let d := doy - (153 * mp + 2) / 5 + 1
  let m := mp + (if mp < 10 then 3 else -9)
  (y + (if m ≤ 2 then 1 else 0), m, d)

/-- Zero-pads a number to two digits (the `HH`, `mm`, `ss` fields). -/
def pad2 (n : Nat) : String := if n < 10 then "0" ++ toString n else toString n

/-- Zero-pads a number to four digits (the `yyyy` field). -/
def pad4 (n : Nat) : String :=
  if n < 10 then "000" ++ toString n
  else if n < 100 then "00" ++ toString n
  else if n < 1000 then "0" ++ toString n
  else toString n

/-- Modelled library behaviour: `formatInTimeZone(t, 'Asia/Bangkok',
'd/M/yyyy HH:mm:ss')` from date-fns-tz (lines 77-78, 82, 96).
Asia/Bangkok is a fixed UTC+7 zone (no daylight saving), so the
conversion shifts the UTC epoch-millisecond timestamp by 7 hours and
renders the civil date and time, day and month unpadded, hour, minute
and second zero-padded to two digits. -/
def formatBangkok (msUTC : Int) : String :=
  let shifted := msUTC + 7 * 3600 * 1000
  let secs := shifted / 1000
  let day := secs / 86400
  let sod := (secs % 86400).toNat
  let hh := sod / 3600
  let mi := (sod % 3600) / 60
  let ss := sod % 60
  let ymd := civilFromDays day
  toString ymd.2.2.toNat ++ "/" ++ toString ymd.2.1.toNat ++ "/" ++
    pad4 ymd.1.toNat ++ " " ++ pad2 hh ++ ":" ++ pad2 mi ++ ":" ++ pad2 ss

/-! ### Startup (src/server.js lines 11-33, 137-141) -/

/-- Lines 11-18: the MONGO_URI guard.  `none` models an unset
environment variable; JavaScript falsiness also rejects the empty
string, and otherwise the URI must start with `mongodb`. -/
def uriRejected : Option String → Bool
  | none => true
  | some u => u == "" || !(beginsWith (strCodes "mongodb") (strCodes u))

/-- What the process does at startup. -/
inductive StartupOutcome where
  | exited : StartupOutcome
  | listening : StartupOutcome
  deriving DecidableEq, Repr

/-- Lines 11-18, 23-33 and 137-141: the URI guard (`process.exit(1)` on
failure), then `connectDB()` (`process.exit(1)` if `client.connect()`
throws), and only then `app.listen`.  `connectOk` models whether the
connection attempt succeeds. -/
def startup (uri : Option String) (connectOk : Bool) : StartupOutcome :=
  if uriRejected uri then .exited
  else if !connectOk then .exited
  else .listening

/-! ### The GET / dashboard handler (src/server.js lines 40-105) -/

/-- The two collections of the `weatherdb` database. -/
structure DB where
  records : List WeatherRecord
  sensors : List SensorReading
  deriving DecidableEq, Repr

/-- A province as rendered: the weather record with the
`formattedTimestamp` property attached on line 82. -/
structure ProvinceView where
  record : WeatherRecord
  formattedTimestamp : String
  deriving DecidableEq, Repr

/-- A region as rendered. -/
structure RegionViewFmt where
  regionName : String
  provinces : List ProvinceView
  deriving DecidableEq, Repr

/-- A sensor reading as rendered: the reading with the
`formattedTimestamp` property attached on line 96. -/
structure SensorView where
  reading : SensorReading
  formattedTimestamp : String
  deriving DecidableEq, Repr

/-- The view model passed to `res.render('index', ...)` on line 100. -/
structure DashboardPage where
  regions : List RegionViewFmt
  sensorData : List SensorView
  query : String
  locale : String
  deriving DecidableEq, Repr

/-- An HTTP response of the dashboard route. -/
inductive GetResponse where
  | render : DashboardPage → GetResponse
  | serverError : String → GetResponse
  deriving DecidableEq, Repr

/-- The fallible operations inside the `try` block of the handler, in
execution order: the aggregation (line 74), the timestamp formatting
(lines 80-84, which throws on an invalid stored timestamp), and the
sensors query (lines 88-92). -/
inductive DashboardStep where
  | aggregation : DashboardStep
  | formatting : DashboardStep
  | sensorsQuery : DashboardStep
  deriving DecidableEq, Repr

/-- The body of the `try` block (lines 42-100): builds the full view
model, or raises at the injected failure point. -/
def dashboardBody (q : String) (db : DB) (failAt : Option DashboardStep) :
    Except Unit DashboardPage :=
  if failAt = some .aggregation then .error () else
  let regions := aggregate q db.records
  if failAt = some .formatting then .error () else
  let regionsFmt := regions.map (fun v =>
    RegionViewFmt.mk v.regionName
      (v.provinces.map (fun r => ⟨r, formatBangkok r.timestamp⟩)))
  if failAt = some .sensorsQuery then .error () else
  let sensorData := (sensorQuery db.sensors).map
    (fun s => ⟨s, formatBangkok s.timestamp⟩)
  .ok ⟨regionsFmt, sensorData, q, "th-TH"⟩

/-- Lines 40-105: the whole `GET /` handler.  Any exception in the `try`
block is caught on lines 101-104 and answered with status 500 and the
Thai error message; the handler never writes, so the database is
returned unchanged. -/
def handleDashboard (q : String) (db : DB) (failAt : Option DashboardStep) :
    DB × GetResponse :=
  match dashboardBody q db failAt with
  | .ok page => (db, .render page)
  | .error _ => (db, .serverError "เกิดข้อผิดพลาด")

/-! ### Concrete fixtures used by the witness theorems -/

/-- Three weather records: two for city `a` (region `N`), one for city
`b` (region `S`). -/
def wrecsW : List WeatherRecord :=
  [⟨"a", "N", 5, 0⟩, ⟨"a", "N", 9, 1⟩, ⟨"b", "S", 2, 2⟩]

/-- Two weather records with distinct cities and regions. -/
def recs2W : List WeatherRecord :=
  [⟨"ax", "N", 5, 0⟩, ⟨"by", "S", 2, 2⟩]

/-! ### Order properties of the sort relations -/

theorem lexLe_total : ∀ x y : List Nat, lexLe x y = true ∨ lexLe y x = true
  | [], _ => .inl rfl
  | _ :: _, [] => .inr rfl
  | a :: as, b :: bs => by
    rcases Nat.lt_trichotomy a b with h | h | h
    · left; simp [lexLe, h]
    · subst h
      rcases lexLe_total as bs with ih | ih
      · left; simp [lexLe, ih]
      · right; simp [lexLe, ih]
    · right; simp [lexLe, h]

theorem lexLe_trans : ∀ {x y z : List Nat},
    lexLe x y = true → lexLe y z = true → lexLe x z = true
  | [], _, _, _, _ => rfl
  | a :: as, b :: bs, c :: cs, hxy, hyz => by
    simp only [lexLe, Bool.or_eq_true, Bool.and_eq_true, decide_eq_true_eq,
      beq_iff_eq] at hxy hyz ⊢
    rcases hxy with h1 | ⟨h1, h1'⟩ <;> rcases hyz with h2 | ⟨h2, h2'⟩
    · exact .inl (Nat.lt_trans h1 h2)
    · exact .inl (h2 ▸ h1)
    · exact .inl (h1 ▸ h2)
    · exact .inr ⟨h1.trans h2, lexLe_trans h1' h2'⟩

instance : IsTotal WeatherRecord tsGeW :=
  ⟨fun a b => le_total b.timestamp a.timestamp⟩

instance : IsTrans WeatherRecord tsGeW :=
  ⟨fun _ _ _ h1 h2 => le_trans h2 h1⟩

instance : IsTotal WeatherRecord cityLe :=
  ⟨fun a b => lexLe_total (strCodes a.city) (strCodes b.city)⟩

instance : IsTrans WeatherRecord cityLe :=
  ⟨fun _ _ _ h1 h2 => lexLe_trans h1 h2⟩

instance : IsTotal RegionView regionLe :=
  ⟨fun a b => lexLe_total (strCodes a.regionName) (strCodes b.regionName)⟩

instance : IsTrans RegionView regionLe :=
  ⟨fun _ _ _ h1 h2 => lexLe_trans h1 h2⟩

instance : IsTotal SensorReading tsGeS :=
  ⟨fun a b => le_total b.timestamp a.timestamp⟩

instance : IsTrans SensorReading tsGeS :=
  ⟨fun _ _ _ h1 h2 => le_trans h2 h1⟩

/-! ### Lemmas about the pipeline stages -/

theorem dedupByCityF_mem : ∀ (fuel : Nat) (l : List WeatherRecord),
    l.length ≤ fuel → ∀ r ∈ dedupByCityF fuel l, r ∈ l := by
  intro fuel
  induction fuel with
  | zero =>
    intro l hl
    have : l = [] := List.eq_nil_of_length_eq_zero (Nat.le_zero.mp hl)
    subst this
    simp [dedupByCityF]
  | succ n ih =>
    intro l hl r hr
    cases l with
    | nil => simp [dedupByCityF] at hr
    | cons a as =>
      simp only [dedupByCityF, List.mem_cons] at hr
      rcases hr with hr | hr
      · exact hr ▸ List.mem_cons_self a as
      · have hlen : (as.filter (fun s => !(s.city == a.city))).length ≤ n :=
          le_trans (List.length_filter_le _ _)
            (Nat.succ_le_succ_iff.mp (by simpa using hl))
        exact List.mem_cons_of_mem a
          (List.mem_of_mem_filter (ih _ hlen r hr))

theorem dedupByCityF_countP_le (c : String) : ∀ (fuel : Nat) (l : List WeatherRecord),
    l.length ≤ fuel →
    (dedupByCityF fuel l).countP (fun r => r.city == c) ≤ 1 := by
  intro fuel
  induction fuel with
  | zero =>
    intro l hl
    have : l = [] := List.eq_nil_of_length_eq_zero (Nat.le_zero.mp hl)
    subst this
    simp [dedupByCityF]
  | succ n ih =>
    intro l hl
    cases l with
    | nil => simp [dedupByCityF]
    | cons a as =>
      have hlen : (as.filter (fun s => !(s.city == a.city))).length ≤ n :=
        le_trans (List.length_filter_le _ _)
          (Nat.succ_le_succ_iff.mp (by simpa using hl))
      by_cases hc : a.city = c
      · have h0 : (as.filter (fun s => !(s.city == a.city))).countP
            (fun r => r.city == c) = 0 := by
          rw [List.countP_eq_zero]
          intro x hx
          have hne := List.of_mem_filter hx
          simp only [Bool.not_eq_eq_eq_not, Bool.not_true, beq_eq_false_iff_ne,
            ne_eq] at hne
          simp only [beq_iff_eq]
          exact fun hxc => hne (hxc.trans hc.symm)
        have h1 : (dedupByCityF n (as.filter (fun s => !(s.city == a.city)))).countP
            (fun r => r.city == c) = 0 := by
          rw [List.countP_eq_zero]
          intro x hx
          have hx' := dedupByCityF_mem n _ hlen x hx
          exact (List.countP_eq_zero.mp h0) x hx'
        have hpa : (a.city == c) = true := by simpa using hc
        simp only [dedupByCityF, List.countP_cons, h1, hpa, if_true]
        omega
      · have hpa : (a.city == c) = false := by simpa using hc
        simp only [dedupByCityF, List.countP_cons, hpa, if_false,
          Nat.add_zero]
        exact ih _ hlen

theorem countP_city_filter_ne (c : String) (a : WeatherRecord)
    (hc : a.city ≠ c) (as : List WeatherRecord) :
    (as.filter (fun s => !(s.city == a.city))).countP (fun r => r.city == c) =
      as.countP (fun r => r.city == c) := by
  rw [List.countP_filter]
  apply List.countP_congr
  intro x _
  simp only [Bool.and_eq_true, beq_iff_eq, Bool.not_eq_eq_eq_not,
    Bool.not_true, beq_eq_false_iff_ne, ne_eq]
  constructor
  · exact fun h => h.1
  · exact fun h => ⟨h, fun hxa => hc (hxa ▸ h)⟩

theorem dedupByCityF_countP_pos (c : String) : ∀ (fuel : Nat) (l : List WeatherRecord),
    l.length ≤ fuel → 0 < l.countP (fun r => r.city == c) →
    (dedupByCityF fuel l).countP (fun r => r.city == c) = 1 := by
  intro fuel
  induction fuel with
  | zero =>
    intro l hl
    have : l = [] := List.eq_nil_of_length_eq_zero (Nat.le_zero.mp hl)
    subst this
    simp [dedupByCityF]
  | succ n ih =>
    intro l hl hpos
    cases l with
    | nil => simp at hpos
    | cons a as =>
      have hlen : (as.filter (fun s => !(s.city == a.city))).length ≤ n :=
        le_trans (List.length_filter_le _ _)
          (Nat.succ_le_succ_iff.mp (by simpa using hl))
      by_cases hc : a.city = c
      · have h0 : (as.filter (fun s => !(s.city == a.city))).countP
            (fun r => r.city == c) = 0 := by
          rw [List.countP_eq_zero]
          intro x hx
          have hne := List.of_mem_filter hx
          simp only [Bool.not_eq_eq_eq_not, Bool.not_true, beq_eq_false_iff_ne,
            ne_eq] at hne
          simp only [beq_iff_eq]
          exact fun hxc => hne (hxc.trans hc.symm)
        have h1 : (dedupByCityF n (as.filter (fun s => !(s.city == a.city)))).countP
            (fun r => r.city == c) = 0 := by
          rw [List.countP_eq_zero]
          intro x hx
          have hx' := dedupByCityF_mem n _ hlen x hx
          exact (List.countP_eq_zero.mp h0) x hx'
        have hpa : (a.city == c) = true := by simpa using hc
        simp only [dedupByCityF, List.countP_cons, h1, hpa, if_true]
      · have hpa : (a.city == c) = false := by simpa using hc
        have hpos' : 0 < as.countP (fun r => r.city == c) := by
          simpa [List.countP_cons, hpa] using hpos
        have heq := countP_city_filter_ne c a hc as
        simp only [dedupByCityF, List.countP_cons, hpa, if_false, Nat.add_zero]
        exact ih _ hlen (heq ▸ hpos')

theorem dedupByCityF_max : ∀ (fuel : Nat) (l : List WeatherRecord),
    l.length ≤ fuel → List.Pairwise tsGeW l →
    ∀ r ∈ dedupByCityF fuel l, ∀ s ∈ l, s.city = r.city →
      s.timestamp ≤ r.timestamp := by
  intro fuel
  induction fuel with
  | zero =>
    intro l hl
    have : l = [] := List.eq_nil_of_length_eq_zero (Nat.le_zero.mp hl)
    subst this
    simp [dedupByCityF]
  | succ n ih =>
    intro l hl hp r hr s hs hcity
    cases l with
    | nil => simp [dedupByCityF] at hr
    | cons a as =>
      have hlen : (as.filter (fun t => !(t.city == a.city))).length ≤ n :=
        le_trans (List.length_filter_le _ _)
          (Nat.succ_le_succ_iff.mp (by simpa using hl))
      simp only [dedupByCityF, List.mem_cons] at hr
      rcases hr with rfl | hr
      · rcases List.mem_cons.mp hs with rfl | hs'
        · exact le_refl _
        · exact (List.pairwise_cons.mp hp).1 s hs'
      · have hrfil : r ∈ as.filter (fun t => !(t.city == a.city)) :=
          dedupByCityF_mem n _ hlen r hr
        have hrne : r.city ≠ a.city := by
          have := List.of_mem_filter hrfil
          simpa using this
        rcases List.mem_cons.mp hs with rfl | hs'
        · exact absurd hcity.symm hrne
        · have hsfil : s ∈ as.filter (fun t => !(t.city == a.city)) := by
            rw [List.mem_filter]
            refine ⟨hs', ?_⟩
            simp only [Bool.not_eq_eq_eq_not, Bool.not_true, beq_eq_false_iff_ne,
              ne_eq]
            exact fun h => hrne (hcity ▸ h)
          exact ih _ hlen
            (List.Pairwise.filter _ (List.pairwise_cons.mp hp).2)
            r hr s hsfil hcity

theorem groupByRegionF_perm : ∀ (fuel : Nat) (l : List WeatherRecord),
    l.length ≤ fuel → (allProvinces (groupByRegionF fuel l)).Perm l := by
  intro fuel
  induction fuel with
  | zero =>
    intro l hl
    have : l = [] := List.eq_nil_of_length_eq_zero (Nat.le_zero.mp hl)
    subst this
    simp [groupByRegionF, allProvinces]
  | succ n ih =>
    intro l hl
    cases l with
    | nil => simp [groupByRegionF, allProvinces]
    | cons a as =>
      have hlen : (as.filter (fun s => !(s.region == a.region))).length ≤ n :=
        le_trans (List.length_filter_le _ _)
          (Nat.succ_le_succ_iff.mp (by simpa using hl))
      simp only [groupByRegionF, allProvinces]
      rw [List.filter_cons_of_pos (by simp), List.cons_append]
      apply List.Perm.cons
      exact List.Perm.trans
        (List.Perm.append_left _ (ih _ hlen))
        (List.filter_append_perm (fun s => s.region == a.region) as)

theorem groupByRegionF_provinces_sublist : ∀ (fuel : Nat) (l : List WeatherRecord),
    l.length ≤ fuel → ∀ v ∈ groupByRegionF fuel l, v.provinces.Sublist l := by
  intro fuel
  induction fuel with
  | zero =>
    intro l hl
    have : l = [] := List.eq_nil_of_length_eq_zero (Nat.le_zero.mp hl)
    subst this
    simp [groupByRegionF]
  | succ n ih =>
    intro l hl v hv
    cases l with
    | nil => simp [groupByRegionF] at hv
    | cons a as =>
      have hlen : (as.filter (fun s => !(s.region == a.region))).length ≤ n :=
        le_trans (List.length_filter_le _ _)
          (Nat.succ_le_succ_iff.mp (by simpa using hl))
      simp only [groupByRegionF, List.mem_cons] at hv
      rcases hv with rfl | hv
      · exact List.filter_sublist _
      · exact ((ih _ hlen v hv).trans (List.filter_sublist _)).trans
          (List.sublist_cons_self a as)

theorem allProvinces_perm : ∀ {l₁ l₂ : List RegionView},
    l₁.Perm l₂ → (allProvinces l₁).Perm (allProvinces l₂) := by
  intro l₁ l₂ h
  induction h with
  | nil => exact List.Perm.refl _
  | cons x _ ih => exact List.Perm.append_left x.provinces ih
  | swap x y l =>
    simp only [allProvinces, ← List.append_assoc]
    exact List.Perm.append_right _ List.perm_append_comm
  | trans _ _ ih1 ih2 => exact ih1.trans ih2

/-- The records shown on the dashboard are exactly (a permutation of)
the latest-per-city reduction of the time-sorted, filtered records. -/
theorem aggregate_perm (q : String) (records : List WeatherRecord) :
    (allProvinces (aggregate q records)).Perm
      (dedupByCity (List.insertionSort tsGeW (matchStage q records))) := by
  unfold aggregate
  refine (allProvinces_perm (List.perm_insertionSort regionLe _)).trans ?_
  refine (groupByRegionF_perm _ _ (le_refl _)).trans ?_
  exact List.perm_insertionSort cityLe _

theorem mem_matchStage_of_mem (q : String) {records : List WeatherRecord}
    {r : WeatherRecord} (hr : r ∈ matchStage q records) : r ∈ records := by
  unfold matchStage at hr
  split at hr
  · exact hr
  · exact List.mem_of_mem_filter hr

theorem mem_matchStage (q : String) {records : List WeatherRecord}
    {r : WeatherRecord} (hr : r ∈ records)
    (hm : q = "" ∨ containsCI r.city q = true) : r ∈ matchStage q records := by
  unfold matchStage
  split
  · exact hr
  · rcases hm with hm | hm
    · exact absurd hm (by assumption)
    · exact List.mem_filter.mpr ⟨hr, hm⟩

theorem matchStage_city (q : String) {records : List WeatherRecord}
    {r : WeatherRecord} (hr : r ∈ matchStage q records) :
    q = "" ∨ containsCI r.city q = true := by
  unfold matchStage at hr
  split at hr
  · left; assumption
  · right; exact (List.mem_filter.mp hr).2

/-- Master lemma: membership, uniqueness-by-count and maximality for
the pipeline output. -/
theorem aggregate_core (q c : String) (records : List WeatherRecord) :
    (0 < (matchStage q records).countP (fun r => r.city == c) →
      (allProvinces (aggregate q records)).countP (fun r => r.city == c) = 1) ∧
    ∀ r ∈ allProvinces (aggregate q records),
      r ∈ matchStage q records ∧
      ∀ s ∈ matchStage q records, s.city = r.city →
        s.timestamp ≤ r.timestamp := by
  have hperm := aggregate_perm q records
  have hsortperm := List.perm_insertionSort tsGeW (matchStage q records)
  constructor
  · intro hpos
    rw [hperm.countP_eq]
    exact dedupByCityF_countP_pos c _ _ (le_refl _)
      (by rwa [hsortperm.countP_eq])
  · intro r hr
    have hr' : r ∈ dedupByCity (List.insertionSort tsGeW (matchStage q records)) :=
      hperm.mem_iff.mp hr
    have hrsort : r ∈ List.insertionSort tsGeW (matchStage q records) :=
      dedupByCityF_mem _ _ (le_refl _) r hr'
    refine ⟨hsortperm.mem_iff.mp hrsort, ?_⟩
    intro s hs hcity
    exact dedupByCityF_max _ _ (le_refl _)
      (List.sorted_insertionSort tsGeW (matchStage q records))
      r hr' s (hsortperm.mem_iff.mpr hs) hcity

/-! ### The claims -/

/-- C1: for every city that has at least one record in `records` (and,
when a non-empty search string is given, whose name matches the filter),
the aggregation result contains exactly one record for that city; that
record comes from the collection and carries the maximum timestamp among
the city's records. -/
theorem c1_latest_per_city (q c : String) (records : List WeatherRecord)
    (h : ∃ r ∈ records, r.city = c ∧ (q = "" ∨ containsCI r.city q = true)) :
    (allProvinces (aggregate q records)).countP (fun r => r.city == c) = 1 ∧
    ∀ r ∈ allProvinces (aggregate q records), r.city = c →
      r ∈ records ∧ ∀ s ∈ records, s.city = c → s.timestamp ≤ r.timestamp := by
  obtain ⟨w, hw, hwc, hwm⟩ := h
  have hcore := aggregate_core q c records
  have hwmatched : w ∈ matchStage q records := mem_matchStage q hw hwm
  have hpos : 0 < (matchStage q records).countP (fun r => r.city == c) :=
    List.countP_pos_iff.mpr ⟨w, hwmatched, by simpa using hwc⟩
  refine ⟨hcore.1 hpos, ?_⟩
  intro r hr hrc
  obtain ⟨hrmatched, hmax⟩ := hcore.2 r hr
  refine ⟨mem_matchStage_of_mem q hrmatched, ?_⟩
  intro s hs hsc
  have hcond : q = "" ∨ containsCI c q = true := by
    rcases matchStage_city q hrmatched with hcase | hcase
    · exact .inl hcase
    · exact .inr (hrc ▸ hcase)
  have hsm : s ∈ matchStage q records := by
    refine mem_matchStage q hs ?_
    rcases hcond with hcase | hcase
    · exact .inl hcase
    · exact .inr (by rw [hsc]; exact hcase)
  exact hmax s hsm (hsc.trans hrc.symm)

theorem c1_witness :
    (∃ r ∈ wrecsW, r.city = "a" ∧ ("" = "" ∨ containsCI r.city "" = true)) ∧
    (allProvinces (aggregate "" wrecsW)).countP (fun r => r.city == "a") = 1 ∧
    (⟨"a", "N", 9, 1⟩ : WeatherRecord) ∈ wrecsW := by
  have h := c1_latest_per_city "" "a" wrecsW
    ⟨⟨"a", "N", 5, 0⟩, by decide, rfl, .inl rfl⟩
  exact ⟨⟨⟨"a", "N", 5, 0⟩, by decide, rfl, .inl rfl⟩, h.1,
    (h.2 ⟨"a", "N", 9, 1⟩ (by decide) rfl).1⟩

/-- C2: with a non-empty search string, every record shown has a city
containing the query as a case-insensitive substring, and every city
with a matching record still appears; an empty query applies no filter. -/
theorem c2_search_filter (q : String) (records : List WeatherRecord) :
    (q ≠ "" →
      (∀ r ∈ allProvinces (aggregate q records), containsCI r.city q = true) ∧
      (∀ c : String, (∃ r ∈ records, r.city = c ∧ containsCI c q = true) →
        ∃ r ∈ allProvinces (aggregate q records), r.city = c)) ∧
    matchStage "" records = records := by
  constructor
  · intro hq
    constructor
    · intro r hr
      have hrm := ((aggregate_core q r.city records).2 r hr).1
      rcases matchStage_city q hrm with hcase | hcase
      · exact absurd hcase hq
      · exact hcase
    · intro c hc
      obtain ⟨w, hw, hwc, hwm⟩ := hc
      have hpos : 0 < (matchStage q records).countP (fun r => r.city == c) :=
        List.countP_pos_iff.mpr
          ⟨w, mem_matchStage q hw (.inr (by rw [hwc]; exact hwm)),
            by simpa using hwc⟩
      have h1 := (aggregate_core q c records).1 hpos
      have h2 : 0 < (allProvinces (aggregate q records)).countP
          (fun r => r.city == c) := by
        rw [h1]; exact Nat.one_pos
      obtain ⟨r, hr, hrc⟩ := List.countP_pos_iff.mp h2
      exact ⟨r, hr, by simpa using hrc⟩
  · simp [matchStage]

theorem c2_witness :
    containsCI "ax" "A" = true ∧ matchStage "" wrecsW = wrecsW := by
  have h := c2_search_filter "A" recs2W
  exact ⟨(h.1 (by decide)).1 ⟨"ax", "N", 5, 0⟩ (by decide),
    (c2_search_filter "" wrecsW).2⟩

/-- C3: the aggregation output is sorted by region name ascending, and
inside each region the provinces are sorted by city name ascending. -/
theorem c3_sorted_output (q : String) (records : List WeatherRecord) :
    List.Sorted regionLe (aggregate q records) ∧
    ∀ v ∈ aggregate q records, List.Sorted cityLe v.provinces := by
  constructor
  · exact List.sorted_insertionSort regionLe _
  · intro v hv
    unfold aggregate at hv
    have hv' : v ∈ groupByRegion (List.insertionSort cityLe (dedupByCity
        (List.insertionSort tsGeW (matchStage q records)))) :=
      (List.perm_insertionSort regionLe _).mem_iff.mp hv
    have hsub := groupByRegionF_provinces_sublist _ _ (le_refl _) v hv'
    exact List.Pairwise.sublist hsub
      (List.sorted_insertionSort cityLe _)

theorem c3_witness :
    List.Sorted regionLe (aggregate "" wrecsW) ∧
    List.Sorted cityLe (RegionView.mk "N" [⟨"a", "N", 9, 1⟩]).provinces := by
  have h := c3_sorted_output "" wrecsW
  exact ⟨h.1, h.2 ⟨"N", [⟨"a", "N", 9, 1⟩]⟩ (by decide)⟩

/-- C4 is false as stated: a `null` field is treated as *present* by the
`=== undefined` check on line 114, so `{temperature: null, humidity: 60}`
is accepted (201) and a record `{temperature: 0, humidity: 60}` is
written, where the claim demands a 400 and no write. -/
theorem c4_counterexample :
    ¬ ((handleSensorPost ⟨some .null, some (.num (.val 60)), []⟩ 5 false []).2.status = 400 ∧
       (handleSensorPost ⟨some .null, some (.num (.val 60)), []⟩ 5 false []).1 = []) := by
  decide

/-- C4 (amended): a field counts as present iff it is not `undefined`
(a `null` field counts as present and is coerced); a request missing a
field in that sense is answered 400 with the descriptive message and
leaves the `sensors` collection unchanged. -/
theorem c4_missing_field_rejected (body : PostBody) (now : Int)
    (insertThrows : Bool) (sensors : List SensorReading)
    (h : body.temperature = none ∨ body.humidity = none) :
    (handleSensorPost body now insertThrows sensors).2 =
        .badRequest "Bad Request: Missing temperature or humidity." ∧
    (handleSensorPost body now insertThrows sensors).2.status = 400 ∧
    (handleSensorPost body now insertThrows sensors).1 = sensors := by
  obtain ⟨t0, h0, rest⟩ := body
  dsimp only at h
  rcases h with h | h
  · subst h
    cases h0 <;> simp [handleSensorPost, PostResponse.status]
  · subst h
    cases t0 <;> simp [handleSensorPost, PostResponse.status]

theorem c4_witness :
    (handleSensorPost ⟨none, some (.num (.val 60)), []⟩ 5 false []).2 =
        .badRequest "Bad Request: Missing temperature or humidity." ∧
    (handleSensorPost ⟨none, some (.num (.val 60)), []⟩ 5 false []).2.status = 400 ∧
    (handleSensorPost ⟨none, some (.num (.val 60)), []⟩ 5 false []).1 = [] :=
  c4_missing_field_rejected ⟨none, some (.num (.val 60)), []⟩ 5 false [] (.inl rfl)

/-- C5: a request with both fields present (and a successful insert)
appends exactly one reading holding the `Number(...)` coercions of the
two values and the server clock, and is answered 201. -/
theorem c5_accepted_insert (body : PostBody) (t h : JsValue) (now : Int)
    (sensors : List SensorReading)
    (ht : body.temperature = some t) (hh : body.humidity = some h) :
    (handleSensorPost body now false sensors).1 =
        sensors ++ [⟨toNumber t, toNumber h, now⟩] ∧
    (handleSensorPost body now false sensors).2.status = 201 := by
  obtain ⟨t0, h0, rest⟩ := body
  dsimp only at ht hh
  subst ht
  subst hh
  simp [handleSensorPost, newSensorRecord, PostResponse.status]

theorem c5_witness :
    (handleSensorPost ⟨some (.str "abc"), some (.num (.val 60)), [("u", .str "C")]⟩
        99 false []).1 = [⟨.nan, .val 60, 99⟩] ∧
    (handleSensorPost ⟨some (.str "abc"), some (.num (.val 60)), [("u", .str "C")]⟩
        99 false []).2.status = 201 := by
  have h := c5_accepted_insert
    ⟨some (.str "abc"), some (.num (.val 60)), [("u", .str "C")]⟩
    (.str "abc") (.num (.val 60)) 99 [] rfl rfl
  refine ⟨?_, h.2⟩
  rw [h.1]
  decide

/-- C10: an accepted request persists a document with exactly the fields
`temperature`, `humidity`, `timestamp` (in that order), and any other
fields of the request body are ignored: they are never read and never
persisted. -/
theorem c10_persisted_fields (body : PostBody) (t h : JsValue) (now : Int)
    (sensors : List SensorReading)
    (ht : body.temperature = some t) (hh : body.humidity = some h) :
    (handleSensorPost body now false sensors).1 =
        sensors ++ [newSensorRecord t h now] ∧
    (newSensorRecord t h now).toDoc.map Prod.fst =
        ["temperature", "humidity", "timestamp"] ∧
    ∀ rest2 : List (String × JsValue),
      handleSensorPost { body with rest := rest2 } now false sensors =
        handleSensorPost body now false sensors := by
  obtain ⟨t0, h0, rest⟩ := body
  dsimp only at ht hh
  subst ht
  subst hh
  refine ⟨by simp [handleSensorPost], by simp [SensorReading.toDoc], ?_⟩
  intro rest2
  rfl

theorem c10_witness :
    (handleSensorPost ⟨some (.num (.val 25)), some (.num (.val 60)),
        [("device", .str "esp32")]⟩ 7 false []).1 =
      [] ++ [newSensorRecord (.num (.val 25)) (.num (.val 60)) 7] ∧
    (newSensorRecord (.num (.val 25)) (.num (.val 60)) 7).toDoc.map Prod.fst =
      ["temperature", "humidity", "timestamp"] ∧
    handleSensorPost ⟨some (.num (.val 25)), some (.num (.val 60)), []⟩ 7 false [] =
      handleSensorPost ⟨some (.num (.val 25)), some (.num (.val 60)),
        [("device", .str "esp32")]⟩ 7 false [] := by
  have h := c10_persisted_fields
    ⟨some (.num (.val 25)), some (.num (.val 60)), [("device", .str "esp32")]⟩
    (.num (.val 25)) (.num (.val 60)) 7 [] rfl rfl
  exact ⟨h.1, h.2.1, h.2.2 []⟩

/-- C6: the dashboard sensor query returns the 5 readings of greatest
timestamp in descending order — all of them, in descending order, when
fewer than 5 exist. -/
theorem c6_recent_sensors (sensors : List SensorReading) :
    ∃ rest, (sensorQuery sensors ++ rest).Perm sensors ∧
      List.Sorted tsGeS (sensorQuery sensors) ∧
      (sensorQuery sensors).length = min 5 sensors.length ∧
      (∀ x ∈ sensorQuery sensors, ∀ y ∈ rest, y.timestamp ≤ x.timestamp) ∧
      (sensors.length ≤ 5 → (sensorQuery sensors).Perm sensors) := by
  refine ⟨(List.insertionSort tsGeS sensors).drop 5, ?_, ?_, ?_, ?_, ?_⟩
  · rw [sensorQuery, List.take_append_drop]
    exact List.perm_insertionSort tsGeS sensors
  · exact List.Pairwise.sublist (List.take_sublist _ _)
      (List.sorted_insertionSort tsGeS sensors)
  · rw [sensorQuery, List.length_take,
      (List.perm_insertionSort tsGeS sensors).length_eq]
  · intro x hx y hy
    have hs := List.sorted_insertionSort tsGeS sensors
    rw [← List.take_append_drop 5 (List.insertionSort tsGeS sensors)] at hs
    exact (List.pairwise_append.mp hs).2.2 x hx y hy
  · intro hle
    have hlen : (List.insertionSort tsGeS sensors).length ≤ 5 := by
      rw [(List.perm_insertionSort tsGeS sensors).length_eq]
      exact hle
    rw [sensorQuery, List.take_of_length_le hlen]
    exact List.perm_insertionSort tsGeS sensors

theorem c6_witness :
    List.Sorted tsGeS (sensorQuery [⟨.val 1, .val 2, 3⟩, ⟨.val 4, .val 5, 9⟩]) ∧
    (sensorQuery [⟨.val 1, .val 2, 3⟩, ⟨.val 4, .val 5, 9⟩]).length = min 5 2 ∧
    (sensorQuery [⟨.val 1, .val 2, 3⟩, ⟨.val 4, .val 5, 9⟩]).Perm
      [⟨.val 1, .val 2, 3⟩, ⟨.val 4, .val 5, 9⟩] := by
  obtain ⟨rest, _h1, h2, h3, _h4, h5⟩ :=
    c6_recent_sensors [⟨.val 1, .val 2, 3⟩, ⟨.val 4, .val 5, 9⟩]
  exact ⟨h2, h3, h5 (by decide)⟩

/-- C7: the timestamp formatter (a pure function by construction)
renders in the fixed UTC+7 zone as `d/M/yyyy HH:mm:ss`: the instant
2024-03-05T10:00:00Z renders as `5/3/2024 17:00:00`, and
2024-03-05T18:04:05Z (which is 01:04:05 on March 6 in UTC+7) renders
with unpadded day/month and zero-padded hour, minute and second. -/
theorem c7_format_fixed_timezone :
    formatBangkok 1709632800000 = "5/3/2024 17:00:00" ∧
    formatBangkok 1709661845000 = "6/3/2024 01:04:05" := by
  constructor <;> decide

/-- C8: when the connection string is absent or does not start with the
recognized scheme prefix, or the connection attempt fails, the process
exits before listening; no partial startup occurs. -/
theorem c8_startup_guard (uri : Option String) (connectOk : Bool)
    (h : uriRejected uri = true ∨ connectOk = false) :
    startup uri connectOk = .exited ∧ startup uri connectOk ≠ .listening := by
  have hex : startup uri connectOk = .exited := by
    rcases h with h | h
    · simp [startup, h]
    · cases hu : uriRejected uri <;> simp [startup, hu, h]
  refine ⟨hex, ?_⟩
  rw [hex]
  intro hc
  cases hc

theorem c8_witness :
    startup (some "mysql://db") true = .exited ∧
    startup (some "mysql://db") true ≠ .listening :=
  c8_startup_guard (some "mysql://db") true (.inl (by decide))

/-- C9: the dashboard handler never writes to either collection; if any
of the aggregation, the timestamp formatting or the sensors query
throws, the response is a 500 with the localized error message, and a
rendered page is produced only when nothing threw. -/
theorem c9_dashboard_reads_only (q : String) (db : DB)
    (failAt : Option DashboardStep) :
    (handleDashboard q db failAt).1 = db ∧
    (failAt ≠ none →
      (handleDashboard q db failAt).2 = .serverError "เกิดข้อผิดพลาด") ∧
    (∀ page, (handleDashboard q db failAt).2 = .render page → failAt = none) := by
  rcases failAt with _ | step
  · exact ⟨rfl, fun hne => absurd rfl hne, fun _ _ => rfl⟩
  · cases step <;>
      exact ⟨rfl, fun _ => rfl, fun page hp => nomatch hp⟩

theorem c9_witness :
    (handleDashboard "x" ⟨wrecsW, []⟩ (some .formatting)).1 = ⟨wrecsW, []⟩ ∧
    (handleDashboard "x" ⟨wrecsW, []⟩ (some .formatting)).2 =
      .serverError "เกิดข้อผิดพลาด" := by
  have h := c9_dashboard_reads_only "x" ⟨wrecsW, []⟩ (some .formatting)
  exact ⟨h.1, h.2.1 (by decide)⟩
